import Mathlib

/-!
Shallow embedding of the CLSP secure-envelope protocol and hub message
lifecycle (Go sources: internal/crypto/message.go, internal/crypto/keys.go,
internal/hub/server.go, and the client code in internal/cli).

Machine bytes are modelled as natural numbers (< 256 where it matters; the
XOR of two bytes is again a byte).  RSA-OAEP, PKCS#1 v1.5 signing and the
AES block cipher are modelled as ideal primitives: an OAEP ciphertext
records the recipient key and payload, a signature records the signing key
and the signed digest, and the AES-CTR keystream is an arbitrary function
of (key, IV, position) over which all theorems quantify.  SHA-256 is
modelled as collision-free, so the signed digest is the canonical form
itself.  Randomness (crypto/rand.Reader) is an explicit byte-stream
parameter.  A Go function that can panic is given a result type with a
dedicated panic outcome.

The hub is backed by SQLite.  Its state is the contents of the users and
messages tables, each as a list of rows in insertion order.  SQL queries
are translated clause by clause; ORDER BY with equal keys is modelled as a
stable sort over the table scan (insertion) order, and LIKE with a
percent-wrapped pattern as byte-substring containment.
-/

namespace Clsp

/-- A byte sequence ([]byte in Go). -/
abbrev Bytes := List Nat

/-- One call of cipher.Stream.XORKeyStream for a CTR stream: XOR the input
with the keystream bytes at positions pos, pos+1, ...  The CTR stream is
stateful across calls, which is captured by the starting position. -/
def xorKeyStream (stream : Nat → Nat) : Nat → Bytes → Bytes
  | _, [] => []
  | pos, b :: rest => (b ^^^ stream pos) :: xorKeyStream stream (pos + 1) rest

/-- An RSA public key: abstract key-pair identity plus the modulus size in
bytes (rsa.PublicKey.Size(); 256 for the 2048-bit keys of GenerateKeyPair). -/
structure RSAPublicKey where
  keyId : Nat
  sizeBytes : Nat
deriving DecidableEq, Repr

/-- An RSA private key, identified with its key pair. -/
structure RSAPrivateKey where
  keyId : Nat
  sizeBytes : Nat
deriving DecidableEq, Repr

/-- privateKey.PublicKey in Go. -/
def RSAPrivateKey.publicKey (k : RSAPrivateKey) : RSAPublicKey :=
  ⟨k.keyId, k.sizeBytes⟩

/-- An RSA-OAEP ciphertext, idealised: it remembers the key it was
encrypted to and the payload.  Decryption with any other key fails. -/
structure OAEPCiphertext where
  keyId : Nat
  payload : Bytes
deriving DecidableEq, Repr

/-- OAEP overhead for SHA-256: 2*hLen + 2 = 66 bytes.  rsa.EncryptOAEP
rejects a message longer than k - 66 where k is the modulus size. -/
def oaepOverhead : Nat := 66

/-- rsa.EncryptOAEP(sha256.New(), rand.Reader, pub, msg, nil). -/
def rsaEncryptOAEP (pub : RSAPublicKey) (msg : Bytes) : Except String OAEPCiphertext :=
  if pub.sizeBytes < msg.length + oaepOverhead then
    .error "crypto/rsa: message too long for RSA public key size"
  else
    .ok ⟨pub.keyId, msg⟩

/-- rsa.DecryptOAEP(sha256.New(), rand.Reader, priv, c, nil).  The Go
ciphertext argument is a []byte which may be nil (modelled as none);
decryption of a nil or mismatched ciphertext fails. -/
def rsaDecryptOAEP (priv : RSAPrivateKey) (c : Option OAEPCiphertext) : Except String Bytes :=
  match c with
  | some c => if c.keyId = priv.keyId then .ok c.payload else .error "crypto/rsa: decryption error"
  | none => .error "crypto/rsa: decryption error"

/-- AESKeySize from message.go. -/
def AESKeySize : Nat := 32

/-- aes.BlockSize. -/
def aesBlockSize : Nat := 16

/-- aes.NewCipher: succeeds exactly on 16/24/32-byte keys. -/
def aesNewCipher (key : Bytes) : Except String Unit :=
  if key.length = 16 ∨ key.length = 24 ∨ key.length = 32 then .ok ()
  else .error "crypto/aes: invalid key size"

/-- Attachment from message.go (filename, content type, size, content). -/
structure Attachment where
  filename : String
  contentType : String
  size : Int
  content : Bytes
deriving DecidableEq, Repr

/-- The canonical form of a Message with the Signature field stripped:
this stands for the bytes of json.Marshal on the struct copy whose
Signature is nil.  Go JSON encoding of this struct is injective in the
remaining fields, so the canonical form is modelled as the tuple of those
fields; hashing with SHA-256 is modelled as collision-free, so the signed
digest is this canonical form. -/
structure MessageCanon where
  id : String
  sender : String
  recipient : String
  timestamp : Int
  status : String
  encryptedKey : Option OAEPCiphertext
  iv : Bytes
  content : Bytes
  attachment : Option Attachment
deriving DecidableEq, Repr

/-- A PKCS#1 v1.5 signature, idealised: it records the signing key pair
and the signed digest.  Verification succeeds exactly when the stored
digest and public key match. -/
structure RSASignature where
  keyId : Nat
  digest : MessageCanon
deriving DecidableEq, Repr

/-- Message from message.go.  Default values mirror the Go zero values:
empty strings, zero timestamp, nil slices and pointers. -/
structure Message where
  id : String := ""
  sender : String := ""
  recipient : String := ""
  timestamp : Int := 0
  status : String := ""
  encryptedKey : Option OAEPCiphertext := none
  iv : Bytes := []
  content : Bytes := []
  signature : Option RSASignature := none
  attachment : Option Attachment := none
deriving DecidableEq, Repr

/-- msgCopy := *msg; msgCopy.Signature = nil; json.Marshal(msgCopy) —
the canonicalisation used both at signing (where the metadata fields still
hold their zero values) and at verification. -/
def Message.canonical (m : Message) : MessageCanon :=
  ⟨m.id, m.sender, m.recipient, m.timestamp, m.status,
    m.encryptedKey, m.iv, m.content, m.attachment⟩

/-- Smallest modulus (in bytes) accepted by rsa.SignPKCS1v15 for a
SHA-256 digest: 19-byte DigestInfo prefix + 32-byte hash + 11 padding. -/
def pkcs1v15MinKeySize : Nat := 62

/-- rsa.SignPKCS1v15(rand.Reader, priv, crypto.SHA256, digest). -/
def rsaSignPKCS1v15 (priv : RSAPrivateKey) (digest : MessageCanon) :
    Except String RSASignature :=
  if priv.sizeBytes < pkcs1v15MinKeySize then
    .error "crypto/rsa: message too long for RSA key size"
  else
    .ok ⟨priv.keyId, digest⟩

/-- rsa.VerifyPKCS1v15(pub, crypto.SHA256, digest, sig): true means nil
error.  A nil signature never verifies. -/
def rsaVerifyPKCS1v15 (pub : RSAPublicKey) (digest : MessageCanon)
    (sig : Option RSASignature) : Bool :=
  match sig with
  | some s => if s.keyId = pub.keyId ∧ s.digest = digest then true else false
  | none => false

deriving instance DecidableEq for Except

/-- Outcome of a Go function call that can also panic. -/
inductive GoResult (α : Type) where
  | ok : α → GoResult α
  | error : String → GoResult α
  | panicked : String → GoResult α
deriving DecidableEq, Repr

/-- The crypto/rand.Reader byte streams consumed by EncryptMessage:
io.ReadFull fills the 32-byte AES key and the 16-byte IV from them. -/
structure Entropy where
  keyStream : Nat → Nat
  ivStream : Nat → Nat

/-- The 32-byte session key drawn from the random source. -/
def sessionKeyOf (e : Entropy) : Bytes := (List.range AESKeySize).map e.keyStream

/-- The 16-byte IV drawn from the random source. -/
def ivOf (e : Entropy) : Bytes := (List.range aesBlockSize).map e.ivStream

/-- EncryptMessage from message.go.  `ks` is the AES-CTR keystream as a
function of (key, IV, byte position).  The second component of the result
is the caller-visible final state of the attachment argument: Go mutates
attachment.Content in place (the encrypted bytes overwrite the plaintext
before signing), so the mutation survives even when a later step fails. -/
def EncryptMessage (ks : Bytes → Bytes → Nat → Nat) (e : Entropy)
    (senderPrivateKey : RSAPrivateKey) (recipientPublicKey : RSAPublicKey)
    (content : Bytes) (attachment : Option Attachment) :
    GoResult Message × Option Attachment :=
  let aesKey := sessionKeyOf e
  match rsaEncryptOAEP recipientPublicKey aesKey with
  | .error err => (.error ("failed to encrypt AES key: " ++ err), attachment)
  | .ok encryptedKey =>
    match aesNewCipher aesKey with
    | .error err => (.error ("failed to create AES cipher: " ++ err), attachment)
    | .ok _ =>
      let iv := ivOf e
      let stream := ks aesKey iv
      let encryptedContent := xorKeyStream stream 0 content
      let attachment' := attachment.map fun a =>
        { a with content := xorKeyStream stream content.length a.content }
      let msg : Message :=
        { encryptedKey := some encryptedKey, iv := iv,
          content := encryptedContent, attachment := attachment' }
      match rsaSignPKCS1v15 senderPrivateKey msg.canonical with
      | .error err => (.error ("failed to sign message: " ++ err), attachment')
      | .ok signature => (.ok { msg with signature := some signature }, attachment')

/-- DecryptMessage from message.go.  The second component is the final
state of msg.Attachment (Go decrypts the attachment content in place).
cipher.NewCTR panics when the IV length differs from the AES block size,
which the Go code does not guard against. -/
def DecryptMessage (ks : Bytes → Bytes → Nat → Nat)
    (recipientPrivateKey : RSAPrivateKey) (msg : Message) :
    GoResult Bytes × Option Attachment :=
  match rsaDecryptOAEP recipientPrivateKey msg.encryptedKey with
  | .error err => (.error ("failed to decrypt AES key: " ++ err), msg.attachment)
  | .ok aesKey =>
    match aesNewCipher aesKey with
    | .error err => (.error ("failed to create AES cipher: " ++ err), msg.attachment)
    | .ok _ =>
      if msg.iv.length = aesBlockSize then
        let stream := ks aesKey msg.iv
        let decryptedContent := xorKeyStream stream 0 msg.content
        let attachment' := msg.attachment.map fun a =>
          { a with content := xorKeyStream stream msg.content.length a.content }
        (.ok decryptedContent, attachment')
      else
        (.panicked "cipher.NewCTR: IV length must equal block size", msg.attachment)

/-- VerifySignature from message.go: recompute the canonical digest with
the Signature field stripped and check it against msg.Signature.  true
means nil error. -/
def VerifySignature (senderPublicKey : RSAPublicKey) (msg : Message) : Bool :=
  rsaVerifyPKCS1v15 senderPublicKey msg.canonical msg.signature

/-- The metadata assignment performed by SendMessage (internal/cli) after
EncryptMessage returns: msg.ID, msg.Sender, msg.Recipient, msg.Timestamp,
msg.Status are only set once the signature is already in place. -/
def setMetadata (m : Message) (id sender recipient : String)
    (timestamp : Int) (status : String) : Message :=
  { m with id := id, sender := sender, recipient := recipient,
           timestamp := timestamp, status := status }

/-- The attachment state after EncryptMessage has run its symmetric step:
content encrypted with the keystream positions following the body. -/
def encryptedAttachmentOf (ks : Bytes → Bytes → Nat → Nat) (e : Entropy)
    (content : Bytes) (attachment : Option Attachment) : Option Attachment :=
  attachment.map fun a =>
    { a with content := xorKeyStream (ks (sessionKeyOf e) (ivOf e)) content.length a.content }

/-- The Message assembled by EncryptMessage just before signing. -/
def encryptedCoreOf (ks : Bytes → Bytes → Nat → Nat) (e : Entropy)
    (recipientPublicKey : RSAPublicKey) (content : Bytes)
    (attachment : Option Attachment) : Message :=
  { encryptedKey := some ⟨recipientPublicKey.keyId, sessionKeyOf e⟩,
    iv := ivOf e,
    content := xorKeyStream (ks (sessionKeyOf e) (ivOf e)) 0 content,
    attachment := encryptedAttachmentOf ks e content attachment }

/-- The Message returned by a successful EncryptMessage. -/
def encryptedMessageOf (ks : Bytes → Bytes → Nat → Nat) (e : Entropy)
    (senderPrivateKey : RSAPrivateKey) (recipientPublicKey : RSAPublicKey)
    (content : Bytes) (attachment : Option Attachment) : Message :=
  { encryptedCoreOf ks e recipientPublicKey content attachment with
    signature := some ⟨senderPrivateKey.keyId,
      (encryptedCoreOf ks e recipientPublicKey content attachment).canonical⟩ }

/-- A row of the hub's messages table (internal/hub/server.go,
createTables): id, sender_id, recipient_id, content, created_at, read_at,
expires_at.  Note that of the Envelope only the Content bytes have a
column; encrypted_key, iv, signature and the attachment do not. -/
structure StoredMessage where
  id : String
  senderId : String
  recipientId : String
  content : Bytes
  createdAt : Int
  readAt : Option Int
  expiresAt : Int
deriving DecidableEq, Repr

/-- A row of the hub's users table. -/
structure HubUser where
  id : String
  displayName : String
  publicKey : String
  lastSeen : Int
  online : Bool
deriving DecidableEq, Repr

/-- The hub's database: both tables, rows in insertion order. -/
structure HubState where
  users : List HubUser
  messages : List StoredMessage
deriving DecidableEq, Repr

/-- UPDATE users SET last_seen = now, online = 1 WHERE id = uid.  Matches
zero rows (and is a silent no-op, only logged) when uid is unregistered. -/
def updateLastSeen (users : List HubUser) (uid : String) (now : Int) : List HubUser :=
  users.map fun u => if u.id = uid then { u with lastSeen := now, online := true } else u

/-- UPDATE messages SET read_at = now WHERE recipient_id = uid AND
read_at IS NULL — the read-mark side effect of handleMessages.  It has no
expiry, search or limit condition. -/
def markRead (messages : List StoredMessage) (uid : String) (now : Int) : List StoredMessage :=
  messages.map fun m =>
    if m.recipientId = uid ∧ m.readAt = none then { m with readAt := some now } else m

/-- Byte-sequence prefix test (helper for the LIKE filter). -/
def hasPrefixBytes : Bytes → Bytes → Bool
  | [], _ => true
  | _ :: _, [] => false
  | p :: ps, c :: cs => p == c && hasPrefixBytes ps cs

/-- Byte-substring containment: the model of SQL
`content LIKE '%' || search || '%'` applied to the ciphertext blob. -/
def containsBytes (pat : Bytes) : Bytes → Bool
  | [] => hasPrefixBytes pat []
  | c :: cs => hasPrefixBytes pat (c :: cs) || containsBytes pat cs

/-- The WHERE clause of the handleMessages query: recipient match, not
expired, inner join to the sender's user row, optional read_at IS NULL
(when unread=true) and optional ciphertext LIKE filter (when search is
nonempty). -/
def fetchFilter (userID : String) (unreadOnly : Bool) (search : Bytes) (now : Int)
    (users : List HubUser) (m : StoredMessage) : Bool :=
  decide (m.recipientId = userID ∧ now < m.expiresAt ∧
    (∃ u ∈ users, u.id = m.senderId) ∧
    (unreadOnly = true → m.readAt = none) ∧
    (search = [] ∨ containsBytes search m.content = true))

/-- Insertion step of the ORDER BY created_at DESC model: an element is
placed before the first element whose created_at is not larger, so
elements inserted earlier stay first among equal keys. -/
def insertByCreatedDesc (m : StoredMessage) : List StoredMessage → List StoredMessage
  | [] => [m]
  | x :: xs => if x.createdAt ≤ m.createdAt then m :: x :: xs else x :: insertByCreatedDesc m xs

/-- ORDER BY created_at DESC, modelled as a stable sort over the table
scan (insertion) order; the SQL itself names no tiebreaker for equal
created_at values. -/
def sortByCreatedDesc : List StoredMessage → List StoredMessage
  | [] => []
  | x :: xs => insertByCreatedDesc x (sortByCreatedDesc xs)

/-- LIMIT ?: only added to the query when limit > 0. -/
def applyLimit (limit : Int) (l : List StoredMessage) : List StoredMessage :=
  if 0 < limit then l.take limit.toNat else l

/-- The messages-table row written by handleMessage for a submitted
Envelope: only msg.ID, msg.Sender, msg.Recipient and msg.Content are
bound in the INSERT; created_at is time.Now() and expires_at is
created_at + MessageExpiry.  EncryptedKey, IV, Signature and the
attachment have no column and are discarded. -/
def storedMessageOf (msg : Message) (now expiry : Int) : StoredMessage :=
  ⟨msg.id, msg.sender, msg.recipient, msg.content, now, none, now + expiry⟩

/-- The hub state after a successful POST /message: the row is appended
and the sender's presence is refreshed (no existence check on either the
sender or the recipient; SQLite does not enforce the declared foreign
keys without a pragma the code never sets). -/
def postSendState (s : HubState) (msg : Message) (now expiry : Int) : HubState :=
  { users := updateLastSeen s.users msg.sender now,
    messages := s.messages ++ [storedMessageOf msg now expiry] }

/-- handleMessage (POST /message): INSERT the row; the only failure is the
primary-key collision on id (surfaced as HTTP 500). -/
def handleMessage (s : HubState) (msg : Message) (now expiry : Int) :
    Except String HubState :=
  if s.messages.any (fun m => m.id == msg.id) then .error "Failed to store message"
  else .ok (postSendState s msg now expiry)

/-- handleMessages (GET /messages): reject a missing user_id (400), run
the SELECT, then — unless unread=true was requested — mark every unread
message of the recipient read, and refresh the recipient's presence.  The
returned rows are the rows as scanned before the read-mark update. -/
def handleMessages (s : HubState) (userID : String) (unreadOnly : Bool)
    (limit : Int) (search : Bytes) (now : Int) :
    Except String (List StoredMessage × HubState) :=
  if userID = "" then .error "User ID required"
  else
    .ok (applyLimit limit (sortByCreatedDesc
            (s.messages.filter (fetchFilter userID unreadOnly search now s.users))),
         { users := updateLastSeen s.users userID now,
           messages := if unreadOnly then s.messages else markRead s.messages userID now })

/-- The crypto.Message the client obtains by decoding one fetch-response
row (ListMessages in internal/cli): the hub row is marshalled with keys
id, sender_id, recipient_id, content, created_at, read_at, expires_at,
and of these only "id" and "content" coincide with crypto.Message JSON
tags, so every other field of the decoded Envelope keeps its zero
value. -/
def decodeFetchedMessage (m : StoredMessage) : Message :=
  { id := m.id, content := m.content }

/- ------------------------------------------------------------------ -/
/- Helper lemmas                                                       -/
/- ------------------------------------------------------------------ -/

theorem xorKeyStream_length (stream : Nat → Nat) (pos : Nat) (l : Bytes) :
    (xorKeyStream stream pos l).length = l.length := by
  induction l generalizing pos with
  | nil => rfl
  | cons b rest ih => simp [xorKeyStream, ih]

theorem xorKeyStream_xorKeyStream (stream : Nat → Nat) (pos : Nat) (l : Bytes) :
    xorKeyStream stream pos (xorKeyStream stream pos l) = l := by
  induction l generalizing pos with
  | nil => rfl
  | cons b rest ih =>
      simp [xorKeyStream, ih, Nat.xor_assoc]

theorem sessionKeyOf_length (e : Entropy) : (sessionKeyOf e).length = 32 := by
  simp [sessionKeyOf, AESKeySize]

theorem ivOf_length (e : Entropy) : (ivOf e).length = 16 := by
  simp [ivOf, aesBlockSize]

theorem rsaEncryptOAEP_ok (pub : RSAPublicKey) (msg : Bytes)
    (h : msg.length + oaepOverhead ≤ pub.sizeBytes) :
    rsaEncryptOAEP pub msg = .ok ⟨pub.keyId, msg⟩ := by
  unfold rsaEncryptOAEP
  rw [if_neg (by omega)]

theorem rsaSignPKCS1v15_ok (priv : RSAPrivateKey) (digest : MessageCanon)
    (h : pkcs1v15MinKeySize ≤ priv.sizeBytes) :
    rsaSignPKCS1v15 priv digest = .ok ⟨priv.keyId, digest⟩ := by
  unfold rsaSignPKCS1v15
  rw [if_neg (by omega)]

theorem rsaSignPKCS1v15_err (priv : RSAPrivateKey) (digest : MessageCanon)
    (h : priv.sizeBytes < pkcs1v15MinKeySize) :
    rsaSignPKCS1v15 priv digest = .error "crypto/rsa: message too long for RSA key size" := by
  unfold rsaSignPKCS1v15
  rw [if_pos h]

theorem aesNewCipher_sessionKey (e : Entropy) :
    aesNewCipher (sessionKeyOf e) = .ok () := by
  unfold aesNewCipher
  rw [if_pos (by simp [sessionKeyOf_length])]

/-- On a 2048-bit-class key pair every step of EncryptMessage succeeds and
the result is the explicitly assembled envelope. -/
theorem EncryptMessage_eq (ks : Bytes → Bytes → Nat → Nat) (e : Entropy)
    (A : RSAPrivateKey) (Bpub : RSAPublicKey) (P : Bytes) (att : Option Attachment)
    (hB : AESKeySize + oaepOverhead ≤ Bpub.sizeBytes)
    (hA : pkcs1v15MinKeySize ≤ A.sizeBytes) :
    EncryptMessage ks e A Bpub P att =
      (.ok (encryptedMessageOf ks e A Bpub P att), encryptedAttachmentOf ks e P att) := by
  simp only [EncryptMessage,
    rsaEncryptOAEP_ok Bpub (sessionKeyOf e)
      (by rw [sessionKeyOf_length]; simpa [AESKeySize] using hB),
    aesNewCipher_sessionKey,
    rsaSignPKCS1v15_ok A _ hA]
  rfl

theorem mem_insertByCreatedDesc {a m : StoredMessage} {l : List StoredMessage} :
    a ∈ insertByCreatedDesc m l ↔ a = m ∨ a ∈ l := by
  induction l with
  | nil => simp [insertByCreatedDesc]
  | cons x xs ih =>
      unfold insertByCreatedDesc
      by_cases h : x.createdAt ≤ m.createdAt
      · simp [h]
      · simp [h, ih]
        tauto

theorem mem_sortByCreatedDesc {a : StoredMessage} {l : List StoredMessage} :
    a ∈ sortByCreatedDesc l ↔ a ∈ l := by
  induction l with
  | nil => simp [sortByCreatedDesc]
  | cons x xs ih =>
      simp [sortByCreatedDesc, mem_insertByCreatedDesc, ih]

theorem pairwise_insertByCreatedDesc {m : StoredMessage} {l : List StoredMessage}
    (h : l.Pairwise (fun a b => b.createdAt ≤ a.createdAt)) :
    (insertByCreatedDesc m l).Pairwise (fun a b => b.createdAt ≤ a.createdAt) := by
  induction l with
  | nil => simp [insertByCreatedDesc]
  | cons x xs ih =>
      rw [List.pairwise_cons] at h
      unfold insertByCreatedDesc
      by_cases hx : x.createdAt ≤ m.createdAt
      · rw [if_pos hx, List.pairwise_cons]
        refine ⟨?_, List.pairwise_cons.mpr h⟩
        intro b hb
        rcases List.mem_cons.mp hb with rfl | hb
        · exact hx
        · exact le_trans (h.1 b hb) hx
      · rw [if_neg hx, List.pairwise_cons]
        refine ⟨?_, ih h.2⟩
        intro b hb
        rcases mem_insertByCreatedDesc.mp hb with rfl | hb
        · exact le_of_lt (lt_of_not_le hx)
        · exact h.1 b hb

theorem pairwise_sortByCreatedDesc (l : List StoredMessage) :
    (sortByCreatedDesc l).Pairwise (fun a b => b.createdAt ≤ a.createdAt) := by
  induction l with
  | nil => simp [sortByCreatedDesc]
  | cons x xs ih => exact pairwise_insertByCreatedDesc ih

theorem insertByCreatedDesc_of_le {m : StoredMessage} {l : List StoredMessage}
    (h : ∀ x ∈ l, x.createdAt ≤ m.createdAt) :
    insertByCreatedDesc m l = m :: l := by
  cases l with
  | nil => rfl
  | cons x xs => exact if_pos (h x (List.mem_cons_self x xs))

theorem sortByCreatedDesc_of_ties {l : List StoredMessage}
    (h : ∀ x ∈ l, ∀ y ∈ l, x.createdAt = y.createdAt) :
    sortByCreatedDesc l = l := by
  induction l with
  | nil => rfl
  | cons x xs ih =>
      unfold sortByCreatedDesc
      rw [ih fun a ha b hb =>
            h a (List.mem_cons_of_mem x ha) b (List.mem_cons_of_mem x hb)]
      exact insertByCreatedDesc_of_le fun y hy =>
        le_of_eq (h y (List.mem_cons_of_mem x hy) x (List.mem_cons_self x xs))

theorem mem_applyLimit {a : StoredMessage} {limit : Int} {l : List StoredMessage}
    (h : a ∈ applyLimit limit l) : a ∈ l := by
  unfold applyLimit at h
  by_cases hl : 0 < limit
  · rw [if_pos hl] at h
    exact List.take_subset _ _ h
  · rwa [if_neg hl] at h

theorem pairwise_take {R : StoredMessage → StoredMessage → Prop} :
    ∀ (n : Nat) (l : List StoredMessage), l.Pairwise R → (l.take n).Pairwise R
  | 0, _, _ => by simp
  | _ + 1, [], _ => by simp
  | n + 1, x :: xs, h => by
      rw [List.pairwise_cons] at h
      rw [List.take_succ_cons, List.pairwise_cons]
      exact ⟨fun b hb => h.1 b (List.take_subset _ _ hb), pairwise_take n xs h.2⟩

theorem pairwise_applyLimit {limit : Int} {l : List StoredMessage}
    (h : l.Pairwise (fun a b => b.createdAt ≤ a.createdAt)) :
    (applyLimit limit l).Pairwise (fun a b => b.createdAt ≤ a.createdAt) := by
  unfold applyLimit
  by_cases hl : 0 < limit
  · rw [if_pos hl]
    exact pairwise_take _ _ h
  · rwa [if_neg hl]

/-- Inversion of a successful handleMessages call. -/
theorem handleMessages_ok {s : HubState} {userID : String} {unreadOnly : Bool}
    {limit : Int} {search : Bytes} {now : Int}
    {rows : List StoredMessage} {s₂ : HubState}
    (h : handleMessages s userID unreadOnly limit search now = .ok (rows, s₂)) :
    rows = applyLimit limit (sortByCreatedDesc
        (s.messages.filter (fetchFilter userID unreadOnly search now s.users))) ∧
    s₂ = { users := updateLastSeen s.users userID now,
           messages := if unreadOnly then s.messages else markRead s.messages userID now } := by
  unfold handleMessages at h
  by_cases hu : userID = ""
  · rw [if_pos hu] at h
    exact absurd h (by simp)
  · rw [if_neg hu] at h
    injection h with h
    have h1 := congrArg Prod.fst h
    have h2 := congrArg Prod.snd h
    exact ⟨h1.symm, h2.symm⟩

/-- Every returned row satisfies the WHERE clause and is a stored row. -/
theorem mem_fetch_rows {s : HubState} {userID : String} {unreadOnly : Bool}
    {limit : Int} {search : Bytes} {now : Int}
    {rows : List StoredMessage} {s₂ : HubState}
    (h : handleMessages s userID unreadOnly limit search now = .ok (rows, s₂))
    {m : StoredMessage} (hm : m ∈ rows) :
    m ∈ s.messages ∧ fetchFilter userID unreadOnly search now s.users m = true := by
  rcases handleMessages_ok h with ⟨hrows, -⟩
  subst hrows
  have := mem_sortByCreatedDesc.mp (mem_applyLimit hm)
  exact List.mem_filter.mp this

/- ------------------------------------------------------------------ -/
/- Claims                                                              -/
/- ------------------------------------------------------------------ -/

/-- C2: for every plaintext byte sequence P (including the empty one),
every pair of RSA key pairs A and B of the generated 2048-bit class, and
every optional attachment, DecryptMessage with the recipient private key
inverts EncryptMessage: the body decrypts to P and the attachment bytes
decrypt to the original attachment content. -/
theorem encrypt_decrypt_round_trip (ks : Bytes → Bytes → Nat → Nat) (e : Entropy)
    (A B : RSAPrivateKey) (P : Bytes) (att : Option Attachment)
    (hA : pkcs1v15MinKeySize ≤ A.sizeBytes)
    (hB : AESKeySize + oaepOverhead ≤ B.sizeBytes) :
    EncryptMessage ks e A B.publicKey P att =
      (.ok (encryptedMessageOf ks e A B.publicKey P att), encryptedAttachmentOf ks e P att) ∧
    DecryptMessage ks B (encryptedMessageOf ks e A B.publicKey P att) = (.ok P, att) := by
  constructor
  · exact EncryptMessage_eq ks e A B.publicKey P att hB hA
  · cases att with
    | none =>
        simp [DecryptMessage, encryptedMessageOf, encryptedCoreOf, encryptedAttachmentOf,
          rsaDecryptOAEP, RSAPrivateKey.publicKey, ivOf_length, aesBlockSize,
          aesNewCipher, sessionKeyOf_length, xorKeyStream_xorKeyStream]
    | some a =>
        simp [DecryptMessage, encryptedMessageOf, encryptedCoreOf, encryptedAttachmentOf,
          rsaDecryptOAEP, RSAPrivateKey.publicKey, ivOf_length, aesBlockSize,
          aesNewCipher, sessionKeyOf_length, xorKeyStream_xorKeyStream, xorKeyStream_length]

/-- C2 witness: the round trip evaluated on a concrete keystream, random
source, key pairs, plaintext and attachment. -/
theorem encrypt_decrypt_round_trip_witness :
    pkcs1v15MinKeySize ≤ (256 : Nat) ∧
    (EncryptMessage (fun _ _ _ => 3) ⟨fun _ => 5, fun _ => 2⟩ ⟨0, 256⟩
        (RSAPrivateKey.publicKey ⟨1, 256⟩) [10, 200] (some ⟨"a.txt", "bin", 2, [1, 2]⟩) =
      (.ok (encryptedMessageOf (fun _ _ _ => 3) ⟨fun _ => 5, fun _ => 2⟩ ⟨0, 256⟩
          (RSAPrivateKey.publicKey ⟨1, 256⟩) [10, 200] (some ⟨"a.txt", "bin", 2, [1, 2]⟩)),
        encryptedAttachmentOf (fun _ _ _ => 3) ⟨fun _ => 5, fun _ => 2⟩ [10, 200]
          (some ⟨"a.txt", "bin", 2, [1, 2]⟩)) ∧
     DecryptMessage (fun _ _ _ => 3) ⟨1, 256⟩
        (encryptedMessageOf (fun _ _ _ => 3) ⟨fun _ => 5, fun _ => 2⟩ ⟨0, 256⟩
          (RSAPrivateKey.publicKey ⟨1, 256⟩) [10, 200] (some ⟨"a.txt", "bin", 2, [1, 2]⟩)) =
      (.ok [10, 200], some ⟨"a.txt", "bin", 2, [1, 2]⟩)) :=
  ⟨by decide,
   encrypt_decrypt_round_trip (fun _ _ _ => 3) ⟨fun _ => 5, fun _ => 2⟩ ⟨0, 256⟩ ⟨1, 256⟩
     [10, 200] (some ⟨"a.txt", "bin", 2, [1, 2]⟩) (by decide) (by decide)⟩

/-- C3: SendMessage assigns id, sender, recipient, timestamp and status
only after EncryptMessage has signed the envelope, while VerifySignature
recomputes the canonical form over the metadata-bearing envelope, so
verification with the true sender public key fails for every envelope
whose id was set to a nonempty value (SendMessage always sets a fresh
UUID).  This refutes the claim that such verification succeeds. -/
theorem verify_fails_after_metadata (ks : Bytes → Bytes → Nat → Nat) (e : Entropy)
    (A : RSAPrivateKey) (Bpub : RSAPublicKey) (P : Bytes) (att : Option Attachment)
    (mid msender mrecipient : String) (mts : Int) (mstatus : String) (m : Message)
    (hB : AESKeySize + oaepOverhead ≤ Bpub.sizeBytes)
    (hA : pkcs1v15MinKeySize ≤ A.sizeBytes)
    (hid : mid ≠ "")
    (hEnc : (EncryptMessage ks e A Bpub P att).1 = .ok m) :
    VerifySignature A.publicKey (setMetadata m mid msender mrecipient mts mstatus) = false := by
  rw [EncryptMessage_eq ks e A Bpub P att hB hA] at hEnc
  have hm : encryptedMessageOf ks e A Bpub P att = m := by
    simpa using hEnc
  subst hm
  simp only [VerifySignature, setMetadata, encryptedMessageOf, rsaVerifyPKCS1v15]
  refine if_neg ?_
  rintro ⟨-, h⟩
  apply hid
  have h2 := congrArg MessageCanon.id h
  simpa [encryptedCoreOf, Message.canonical] using h2.symm

/-- C3 witness: with concrete keys, plaintext and metadata, the envelope
produced by the send pipeline fails verification under the true sender
public key. -/
theorem verify_fails_after_metadata_witness :
    VerifySignature (RSAPrivateKey.publicKey ⟨0, 256⟩)
      (setMetadata (encryptedMessageOf (fun _ _ _ => 0) ⟨fun _ => 0, fun _ => 0⟩
          ⟨0, 256⟩ (RSAPrivateKey.publicKey ⟨1, 256⟩) [1, 2] none)
        "uuid-1" "alice" "bob" 99 "sent") = false :=
  verify_fails_after_metadata (fun _ _ _ => 0) ⟨fun _ => 0, fun _ => 0⟩ ⟨0, 256⟩
    (RSAPrivateKey.publicKey ⟨1, 256⟩) [1, 2] none
    "uuid-1" "alice" "bob" 99 "sent" _ (by decide) (by decide) (by decide)
    (by rw [EncryptMessage_eq _ _ _ _ _ _ (by decide) (by decide)])

/-- C4: on an envelope as returned by EncryptMessage (metadata untouched),
verification with the sender public key succeeds, and any post-signing
replacement of the encrypted content, the IV or the encrypted session key
by a different value — in particular any single-bit flip — makes
VerifySignature fail; more generally verification fails for every
mutation that changes any signature-covered field. -/
theorem verify_detects_tampering (ks : Bytes → Bytes → Nat → Nat) (e : Entropy)
    (A : RSAPrivateKey) (Bpub : RSAPublicKey) (P : Bytes) (att : Option Attachment)
    (m : Message) (att' : Option Attachment)
    (hB : AESKeySize + oaepOverhead ≤ Bpub.sizeBytes)
    (hA : pkcs1v15MinKeySize ≤ A.sizeBytes)
    (hEnc : EncryptMessage ks e A Bpub P att = (.ok m, att')) :
    VerifySignature A.publicKey m = true ∧
    (∀ c, c ≠ m.content → VerifySignature A.publicKey { m with content := c } = false) ∧
    (∀ iv, iv ≠ m.iv → VerifySignature A.publicKey { m with iv := iv } = false) ∧
    (∀ k, k ≠ m.encryptedKey → VerifySignature A.publicKey { m with encryptedKey := k } = false) ∧
    (∀ m' : Message, m'.signature = m.signature →
      Message.canonical m' ≠ Message.canonical m →
      VerifySignature A.publicKey m' = false) := by
  rw [EncryptMessage_eq ks e A Bpub P att hB hA] at hEnc
  have hm : encryptedMessageOf ks e A Bpub P att = m := by
    have := congrArg Prod.fst hEnc
    simpa using this
  subst hm
  have hgen : ∀ m' : Message,
      m'.signature = (encryptedMessageOf ks e A Bpub P att).signature →
      Message.canonical m' ≠ Message.canonical (encryptedMessageOf ks e A Bpub P att) →
      VerifySignature A.publicKey m' = false := by
    intro m' hs hne
    unfold VerifySignature
    rw [hs]
    simp only [encryptedMessageOf, rsaVerifyPKCS1v15]
    refine if_neg ?_
    rintro ⟨-, h⟩
    exact hne h.symm
  refine ⟨?_, ?_, ?_, ?_, hgen⟩
  · simp only [VerifySignature, encryptedMessageOf, rsaVerifyPKCS1v15]
    exact if_pos ⟨rfl, rfl⟩
  · intro c hc
    refine hgen _ rfl ?_
    intro h
    exact hc (congrArg MessageCanon.content h)
  · intro iv hiv
    refine hgen _ rfl ?_
    intro h
    exact hiv (congrArg MessageCanon.iv h)
  · intro k hk
    refine hgen _ rfl ?_
    intro h
    exact hk (congrArg MessageCanon.encryptedKey h)

/-- C4 witness: a concrete envelope verifies as produced, and flipping its
content bytes to a different value breaks verification. -/
theorem verify_detects_tampering_witness :
    VerifySignature (RSAPrivateKey.publicKey ⟨0, 256⟩)
      (encryptedMessageOf (fun _ _ _ => 0) ⟨fun _ => 0, fun _ => 0⟩
        ⟨0, 256⟩ (RSAPrivateKey.publicKey ⟨1, 256⟩) [10] none) = true ∧
    VerifySignature (RSAPrivateKey.publicKey ⟨0, 256⟩)
      { encryptedMessageOf (fun _ _ _ => 0) ⟨fun _ => 0, fun _ => 0⟩
          ⟨0, 256⟩ (RSAPrivateKey.publicKey ⟨1, 256⟩) [10] none with content := [11] } = false := by
  have h := verify_detects_tampering (fun _ _ _ => 0) ⟨fun _ => 0, fun _ => 0⟩ ⟨0, 256⟩
    (RSAPrivateKey.publicKey ⟨1, 256⟩) [10] none _ _ (by decide) (by decide)
    (EncryptMessage_eq _ _ _ _ _ _ (by decide) (by decide))
  exact ⟨h.1, h.2.1 [11] (by decide)⟩

/-- C5: on an envelope whose session key decrypts successfully but whose
iv has a length other than the AES block size, DecryptMessage does not
return an error — it panics inside cipher.NewCTR. -/
theorem decrypt_panics_on_bad_iv_length (ks : Bytes → Bytes → Nat → Nat)
    (B : RSAPrivateKey) (m : Message) (c : OAEPCiphertext)
    (hkey : m.encryptedKey = some c) (hcid : c.keyId = B.keyId)
    (hclen : c.payload.length = 32) (hiv : m.iv.length ≠ aesBlockSize) :
    DecryptMessage ks B m =
      (.panicked "cipher.NewCTR: IV length must equal block size", m.attachment) := by
  have h1 : rsaDecryptOAEP B m.encryptedKey = .ok c.payload := by
    rw [hkey]
    simp [rsaDecryptOAEP, hcid]
  have h2 : aesNewCipher c.payload = .ok () := by
    unfold aesNewCipher
    rw [if_pos (Or.inr (Or.inr hclen))]
  simp only [DecryptMessage, h1, h2]
  rw [if_neg hiv]

/-- C5 witness: a concrete envelope with a 15-byte IV and a session key
encrypted to the right key pair makes DecryptMessage panic. -/
theorem decrypt_panics_on_bad_iv_length_witness :
    DecryptMessage (fun _ _ _ => 0) ⟨1, 256⟩
      { encryptedKey := some ⟨1, List.replicate 32 0⟩,
        iv := List.replicate 15 0, content := [1] } =
      (.panicked "cipher.NewCTR: IV length must equal block size", none) :=
  decrypt_panics_on_bad_iv_length (fun _ _ _ => 0) ⟨1, 256⟩ _ ⟨1, List.replicate 32 0⟩
    rfl rfl (by decide) (by decide)

/-- C6 counterexample: EncryptMessage with a sender key too small to sign
(and a normal recipient key) returns an error, yet the caller-visible
attachment content has already been replaced by its encrypted bytes, so
the arguments are not left unchanged on failure. -/
theorem encrypt_error_mutates_attachment_cex :
    (EncryptMessage (fun _ _ _ => 1) ⟨fun _ => 0, fun _ => 0⟩ ⟨0, 61⟩ ⟨1, 256⟩ []
        (some ⟨"f", "t", 2, [5, 6]⟩)).2 ≠ some ⟨"f", "t", 2, [5, 6]⟩ ∧
    (EncryptMessage (fun _ _ _ => 1) ⟨fun _ => 0, fun _ => 0⟩ ⟨0, 61⟩ ⟨1, 256⟩ []
        (some ⟨"f", "t", 2, [5, 6]⟩)).1 =
      .error ("failed to sign message: " ++ "crypto/rsa: message too long for RSA key size") := by
  constructor
  · decide
  · decide

/-- C6 amended: when signing fails after the symmetric step, EncryptMessage
returns an error together with the attachment already encrypted in place
(arguments are not rolled back); however no partial Envelope is returned
on any error, and DecryptMessage never exposes partial output — whenever
it returns an error or panics, the envelope attachment is unchanged. -/
theorem encrypt_no_partial_envelope :
    (∀ (ks : Bytes → Bytes → Nat → Nat) (e : Entropy) (A : RSAPrivateKey)
        (Bpub : RSAPublicKey) (P : Bytes) (a : Attachment),
        AESKeySize + oaepOverhead ≤ Bpub.sizeBytes →
        A.sizeBytes < pkcs1v15MinKeySize →
        EncryptMessage ks e A Bpub P (some a) =
          (.error ("failed to sign message: " ++ "crypto/rsa: message too long for RSA key size"),
           encryptedAttachmentOf ks e P (some a))) ∧
    (∀ (ks : Bytes → Bytes → Nat → Nat) (B : RSAPrivateKey) (m : Message) (err : String),
        (DecryptMessage ks B m).1 = .error err → (DecryptMessage ks B m).2 = m.attachment) ∧
    (∀ (ks : Bytes → Bytes → Nat → Nat) (B : RSAPrivateKey) (m : Message) (p : String),
        (DecryptMessage ks B m).1 = .panicked p → (DecryptMessage ks B m).2 = m.attachment) := by
  refine ⟨?_, ?_, ?_⟩
  · intro ks e A Bpub P a hB hA
    simp only [EncryptMessage,
      rsaEncryptOAEP_ok Bpub (sessionKeyOf e)
        (by rw [sessionKeyOf_length]; simpa [AESKeySize] using hB),
      aesNewCipher_sessionKey,
      rsaSignPKCS1v15_err A _ hA]
    rfl
  · intro ks B m err h
    unfold DecryptMessage at h ⊢
    cases hd : rsaDecryptOAEP B m.encryptedKey with
    | error e2 => simp [hd]
    | ok key =>
      cases hc : aesNewCipher key with
      | error e2 => simp [hd, hc]
      | ok u =>
        by_cases hiv : m.iv.length = aesBlockSize
        · simp [hd, hc, hiv] at h
        · simp [hd, hc, hiv]
  · intro ks B m p h
    unfold DecryptMessage at h ⊢
    cases hd : rsaDecryptOAEP B m.encryptedKey with
    | error e2 => simp [hd]
    | ok key =>
      cases hc : aesNewCipher key with
      | error e2 => simp [hd, hc]
      | ok u =>
        by_cases hiv : m.iv.length = aesBlockSize
        · simp [hd, hc, hiv] at h
        · simp [hd, hc, hiv]

/-- C6 amended witness: the signing-failure mutation evaluated concretely,
and a concrete failing decryption that leaves the attachment untouched. -/
theorem encrypt_no_partial_envelope_witness :
    EncryptMessage (fun _ _ _ => 1) ⟨fun _ => 0, fun _ => 0⟩ ⟨0, 61⟩ ⟨1, 256⟩ []
        (some ⟨"f", "t", 2, [5, 6]⟩) =
      (.error ("failed to sign message: " ++ "crypto/rsa: message too long for RSA key size"),
       encryptedAttachmentOf (fun _ _ _ => 1) ⟨fun _ => 0, fun _ => 0⟩ []
         (some ⟨"f", "t", 2, [5, 6]⟩)) ∧
    (DecryptMessage (fun _ _ _ => 1) ⟨7, 256⟩
        { attachment := some ⟨"g", "t", 1, [9]⟩ }).2 = some ⟨"g", "t", 1, [9]⟩ :=
  ⟨encrypt_no_partial_envelope.1 (fun _ _ _ => 1) ⟨fun _ => 0, fun _ => 0⟩ ⟨0, 61⟩ ⟨1, 256⟩ []
     ⟨"f", "t", 2, [5, 6]⟩ (by decide) (by decide),
   encrypt_no_partial_envelope.2.1 (fun _ _ _ => 1) ⟨7, 256⟩
     { attachment := some ⟨"g", "t", 1, [9]⟩ }
     "failed to decrypt AES key: crypto/rsa: decryption error" (by decide)⟩

/-- C7: a fetch without unreadOnly marks every returned-and-previously-
unread envelope of the recipient as read in the same operation, so an
immediately following unreadOnly fetch for that recipient returns zero
rows; an unreadOnly fetch leaves every stored readAt untouched. -/
theorem fetch_marks_returned_read (s : HubState) (uid : String) (limit : Int)
    (search : Bytes) (now : Int) (rows : List StoredMessage) (s₁ : HubState)
    (h : handleMessages s uid false limit search now = .ok (rows, s₁)) :
    (∀ m ∈ rows, m.readAt = none → { m with readAt := some now } ∈ s₁.messages) ∧
    (∀ (limit₂ : Int) (search₂ : Bytes) (now₂ : Int) (rows₂ : List StoredMessage) (s₂ : HubState),
      handleMessages s₁ uid true limit₂ search₂ now₂ = .ok (rows₂, s₂) → rows₂ = []) ∧
    (∀ (limit₃ : Int) (search₃ : Bytes) (now₃ : Int) (rows₃ : List StoredMessage) (s₃ : HubState),
      handleMessages s uid true limit₃ search₃ now₃ = .ok (rows₃, s₃) → s₃.messages = s.messages) := by
  obtain ⟨hrows, hs₁⟩ := handleMessages_ok h
  refine ⟨?_, ?_, ?_⟩
  · intro m hm hunread
    obtain ⟨hmem, hfil⟩ := mem_fetch_rows h hm
    unfold fetchFilter at hfil
    have hrecip : m.recipientId = uid := (of_decide_eq_true hfil).1
    subst hs₁
    show _ ∈ markRead s.messages uid now
    unfold markRead
    exact List.mem_map.mpr ⟨m, hmem, by rw [if_pos ⟨hrecip, hunread⟩]⟩
  · intro limit₂ search₂ now₂ rows₂ s₂ h₂
    obtain ⟨hrows₂, -⟩ := handleMessages_ok h₂
    subst hrows₂
    have hfil : s₁.messages.filter (fetchFilter uid true search₂ now₂ s₁.users) = [] := by
      rw [List.filter_eq_nil_iff]
      intro m hm
      subst hs₁
      replace hm : m ∈ markRead s.messages uid now := hm
      unfold markRead at hm
      obtain ⟨m₀, hm₀, hfun⟩ := List.mem_map.mp hm
      intro hcontra
      unfold fetchFilter at hcontra
      obtain ⟨hr, -, -, hread, -⟩ := of_decide_eq_true hcontra
      by_cases hcond : m₀.recipientId = uid ∧ m₀.readAt = none
      · rw [if_pos hcond] at hfun
        subst hfun
        exact Option.some_ne_none now (hread rfl)
      · rw [if_neg hcond] at hfun
        subst hfun
        exact hcond ⟨hr, hread rfl⟩
    rw [hfil]
    unfold sortByCreatedDesc applyLimit
    by_cases hl : (0 : Int) < limit₂
    · rw [if_pos hl, List.take_nil]
    · rw [if_neg hl]
  · intro limit₃ search₃ now₃ rows₃ s₃ h₃
    obtain ⟨-, hs₃⟩ := handleMessages_ok h₃
    subst hs₃
    rfl

/-- C7 witness: a recipient with three unread envelopes from a registered
sender; after the non-filtered fetch, the newest envelope is stored with
readAt set, and an unreadOnly fetch on the marked state returns no rows. -/
theorem fetch_marks_returned_read_witness :
    (⟨"m3", "alice", "bob", [3], 3, some 10, 100⟩ : StoredMessage) ∈
      (⟨[⟨"alice", "alice", "pk", 0, true⟩],
        [⟨"m1", "alice", "bob", [1], 1, some 10, 100⟩,
         ⟨"m2", "alice", "bob", [2], 2, some 10, 100⟩,
         ⟨"m3", "alice", "bob", [3], 3, some 10, 100⟩]⟩ : HubState).messages ∧
    ([] : List StoredMessage) = [] := by
  have h := fetch_marks_returned_read
    ⟨[⟨"alice", "alice", "pk", 0, true⟩],
     [⟨"m1", "alice", "bob", [1], 1, none, 100⟩,
      ⟨"m2", "alice", "bob", [2], 2, none, 100⟩,
      ⟨"m3", "alice", "bob", [3], 3, none, 100⟩]⟩
    "bob" 0 [] 10
    [⟨"m3", "alice", "bob", [3], 3, none, 100⟩,
     ⟨"m2", "alice", "bob", [2], 2, none, 100⟩,
     ⟨"m1", "alice", "bob", [1], 1, none, 100⟩]
    ⟨[⟨"alice", "alice", "pk", 0, true⟩],
     [⟨"m1", "alice", "bob", [1], 1, some 10, 100⟩,
      ⟨"m2", "alice", "bob", [2], 2, some 10, 100⟩,
      ⟨"m3", "alice", "bob", [3], 3, some 10, 100⟩]⟩
    (by decide)
  exact ⟨h.1 ⟨"m3", "alice", "bob", [3], 3, none, 100⟩ (by decide) rfl,
         h.2.1 0 [] 11 []
           ⟨[⟨"alice", "alice", "pk", 0, true⟩],
            [⟨"m1", "alice", "bob", [1], 1, some 10, 100⟩,
             ⟨"m2", "alice", "bob", [2], 2, some 10, 100⟩,
             ⟨"m3", "alice", "bob", [3], 3, some 10, 100⟩]⟩
           (by decide)⟩

/-- C8: fetch results are sorted by createdAt descending; among rows with
equal createdAt the order is the deterministic table-scan (insertion)
order — with all stored timestamps tied, the result is exactly the
filtered store in insertion order — and two fetches over the same store
state return the identical sequence. -/
theorem fetch_ordering_deterministic (s : HubState) (uid : String) (unread : Bool)
    (limit : Int) (search : Bytes) (now : Int) (rows : List StoredMessage) (s₂ : HubState)
    (h : handleMessages s uid unread limit search now = .ok (rows, s₂)) :
    rows.Pairwise (fun a b => b.createdAt ≤ a.createdAt) ∧
    ((∀ m₁ ∈ s.messages, ∀ m₂ ∈ s.messages, m₁.createdAt = m₂.createdAt) →
      rows = applyLimit limit (s.messages.filter (fetchFilter uid unread search now s.users))) ∧
    (∀ (rows' : List StoredMessage) (s₂' : HubState),
      handleMessages s uid unread limit search now = .ok (rows', s₂') → rows' = rows) := by
  obtain ⟨hrows, -⟩ := handleMessages_ok h
  refine ⟨?_, ?_, ?_⟩
  · subst hrows
    exact pairwise_applyLimit (pairwise_sortByCreatedDesc _)
  · intro hties
    subst hrows
    rw [sortByCreatedDesc_of_ties]
    intro x hx y hy
    exact hties x (List.mem_of_mem_filter hx) y (List.mem_of_mem_filter hy)
  · intro rows' s₂' h'
    rw [h] at h'
    injection h' with h''
    exact (congrArg Prod.fst h'').symm

/-- C8 witness: two stored envelopes sharing createdAt, inserted as id
"b" then id "a"; the fetch returns them sorted (trivially, equal keys)
and, by the tie clause, exactly in insertion order. -/
theorem fetch_ordering_deterministic_witness :
    ([⟨"b", "alice", "bob", [2], 7, none, 100⟩,
      ⟨"a", "alice", "bob", [1], 7, none, 100⟩] : List StoredMessage).Pairwise
        (fun a b => b.createdAt ≤ a.createdAt) ∧
    [⟨"b", "alice", "bob", [2], 7, none, 100⟩,
     ⟨"a", "alice", "bob", [1], 7, none, 100⟩] =
      applyLimit 0 (List.filter
        (fetchFilter "bob" false [] 5 [⟨"alice", "alice", "pk", 0, true⟩])
        [⟨"b", "alice", "bob", [2], 7, none, 100⟩,
         ⟨"a", "alice", "bob", [1], 7, none, 100⟩]) := by
  have h := fetch_ordering_deterministic
    ⟨[⟨"alice", "alice", "pk", 0, true⟩],
     [⟨"b", "alice", "bob", [2], 7, none, 100⟩,
      ⟨"a", "alice", "bob", [1], 7, none, 100⟩]⟩
    "bob" false 0 [] 5
    [⟨"b", "alice", "bob", [2], 7, none, 100⟩,
     ⟨"a", "alice", "bob", [1], 7, none, 100⟩]
    ⟨[⟨"alice", "alice", "pk", 0, true⟩],
     [⟨"b", "alice", "bob", [2], 7, some 5, 100⟩,
      ⟨"a", "alice", "bob", [1], 7, some 5, 100⟩]⟩
    (by decide)
  exact ⟨h.1, h.2.1 (by decide)⟩

/-- C9: the read-mark side effect of a non-filtered fetch is not limited
to the returned rows — every stored unread envelope of the recipient gets
readAt set, including rows excluded by the limit or search filters and
rows already past expiresAt. -/
theorem fetch_marks_all_unread (s : HubState) (uid : String) (limit : Int)
    (search : Bytes) (now : Int) (rows : List StoredMessage) (s₁ : HubState)
    (h : handleMessages s uid false limit search now = .ok (rows, s₁)) :
    ∀ m ∈ s.messages, m.recipientId = uid → m.readAt = none →
      { m with readAt := some now } ∈ s₁.messages := by
  obtain ⟨-, hs₁⟩ := handleMessages_ok h
  subst hs₁
  intro m hm hrecip hread
  show _ ∈ markRead s.messages uid now
  unfold markRead
  exact List.mem_map.mpr ⟨m, hm, by rw [if_pos ⟨hrecip, hread⟩]⟩

/-- C9 witness: an already-expired envelope that also fails the search
filter is excluded from the fetch result yet still gets readAt set. -/
theorem fetch_marks_all_unread_witness :
    handleMessages ⟨[], [⟨"m1", "alice", "bob", [1], 5, none, 6⟩]⟩ "bob" false 1 [7] 10 =
      .ok ([], ⟨[], [⟨"m1", "alice", "bob", [1], 5, some 10, 6⟩]⟩) ∧
    (⟨"m1", "alice", "bob", [1], 5, some 10, 6⟩ : StoredMessage) ∈
      (⟨[], [⟨"m1", "alice", "bob", [1], 5, some 10, 6⟩]⟩ : HubState).messages :=
  ⟨by decide,
   fetch_marks_all_unread ⟨[], [⟨"m1", "alice", "bob", [1], 5, none, 6⟩]⟩ "bob" 1 [7] 10 []
     ⟨[], [⟨"m1", "alice", "bob", [1], 5, some 10, 6⟩]⟩ (by decide)
     ⟨"m1", "alice", "bob", [1], 5, none, 6⟩ (by decide) rfl rfl⟩

/-- C10: POST /message stores an envelope without checking that the
sender or the recipient is registered, and GET /messages inner-joins each
row to its sender user row, so an envelope from an unregistered sender is
stored but never appears in any fetch result. -/
theorem send_unregistered_sender_orphaned (s : HubState) (msg : Message) (now expiry : Int)
    (hfresh : ∀ m ∈ s.messages, m.id ≠ msg.id)
    (hsender : ∀ u ∈ s.users, u.id ≠ msg.sender) :
    handleMessage s msg now expiry = .ok (postSendState s msg now expiry) ∧
    storedMessageOf msg now expiry ∈ (postSendState s msg now expiry).messages ∧
    (∀ (uid : String) (unread : Bool) (limit : Int) (search : Bytes) (now₂ : Int)
        (rows : List StoredMessage) (s₂ : HubState),
      handleMessages (postSendState s msg now expiry) uid unread limit search now₂ =
        .ok (rows, s₂) →
      storedMessageOf msg now expiry ∉ rows) := by
  refine ⟨?_, ?_, ?_⟩
  · unfold handleMessage
    rw [if_neg]
    intro hany
    rw [List.any_eq_true] at hany
    obtain ⟨m, hm, hid⟩ := hany
    exact hfresh m hm (by simpa using hid)
  · unfold postSendState
    simp
  · intro uid unread limit search now₂ rows s₂ h hmem
    have hfil := (mem_fetch_rows h hmem).2
    unfold fetchFilter at hfil
    obtain ⟨-, -, ⟨u, hu, huid⟩, -, -⟩ := of_decide_eq_true hfil
    replace hu : u ∈ updateLastSeen s.users msg.sender now := hu
    unfold updateLastSeen at hu
    obtain ⟨u₀, hu₀, hfun⟩ := List.mem_map.mp hu
    by_cases hcase : u₀.id = msg.sender
    · exact hsender u₀ hu₀ hcase
    · rw [if_neg hcase] at hfun
      subst hfun
      exact hcase huid

/-- C10 witness: an envelope from the unregistered sender "mallory" is
stored into an empty hub, and the recipient fetch returns no rows. -/
theorem send_unregistered_sender_orphaned_witness :
    handleMessage ⟨[], []⟩
        { id := "m1", sender := "mallory", recipient := "bob", content := [1] } 5 100 =
      .ok (postSendState ⟨[], []⟩
        { id := "m1", sender := "mallory", recipient := "bob", content := [1] } 5 100) ∧
    storedMessageOf { id := "m1", sender := "mallory", recipient := "bob", content := [1] }
        5 100 ∉ ([] : List StoredMessage) := by
  have h := send_unregistered_sender_orphaned ⟨[], []⟩
    { id := "m1", sender := "mallory", recipient := "bob", content := [1] } 5 100
    (by decide) (by decide)
  exact ⟨h.1,
    h.2.2 "bob" false 0 [] 6 []
      ⟨[], [⟨"m1", "mallory", "bob", [1], 5, some 6, 105⟩]⟩ (by decide)⟩

/-- C1: the hub persists only the Content bytes of a submitted Envelope
(the messages table has no column for encrypted_key, iv, signature or the
attachment), so the Envelope decoded from a fetch response carries none
of those fields: the claim that fetch returns every submitted field
intact fails for any envelope with a nonempty encrypted session key. -/
theorem hub_fetch_drops_envelope_fields (s : HubState) (msg : Message) (now expiry : Int)
    (hfresh : ∀ m ∈ s.messages, m.id ≠ msg.id)
    (hsender : ∃ u ∈ s.users, u.id = msg.sender)
    (hexp : 0 < expiry)
    (hkey : msg.encryptedKey ≠ none) :
    handleMessage s msg now expiry = .ok (postSendState s msg now expiry) ∧
    (∀ (rows : List StoredMessage) (s₂ : HubState),
      handleMessages (postSendState s msg now expiry) msg.recipient false 0 [] now =
        .ok (rows, s₂) →
      storedMessageOf msg now expiry ∈ rows ∧
      decodeFetchedMessage (storedMessageOf msg now expiry) =
        { id := msg.id, content := msg.content } ∧
      (decodeFetchedMessage (storedMessageOf msg now expiry)).encryptedKey ≠
        msg.encryptedKey) := by
  constructor
  · unfold handleMessage
    rw [if_neg]
    intro hany
    rw [List.any_eq_true] at hany
    obtain ⟨m, hm, hid⟩ := hany
    exact hfresh m hm (by simpa using hid)
  · intro rows s₂ h
    obtain ⟨hrows, -⟩ := handleMessages_ok h
    subst hrows
    refine ⟨?_, rfl, ?_⟩
    · unfold applyLimit
      rw [if_neg (by omega : ¬(0 : Int) < 0)]
      apply mem_sortByCreatedDesc.mpr
      apply List.mem_filter.mpr
      refine ⟨by unfold postSendState; simp, ?_⟩
      unfold fetchFilter
      apply decide_eq_true
      refine ⟨rfl, by simp [storedMessageOf]; omega, ?_, fun _ => rfl, Or.inl rfl⟩
      obtain ⟨u, hu, huid⟩ := hsender
      refine ⟨{ u with lastSeen := now, online := true }, ?_, huid⟩
      show _ ∈ updateLastSeen s.users msg.sender now
      unfold updateLastSeen
      exact List.mem_map.mpr ⟨u, hu, by rw [if_pos huid]⟩
    · intro hcontra
      exact hkey hcontra.symm

/-- C1 witness: a concrete envelope with session key, IV, signature and
attachment is submitted; the fetch for its recipient returns the stored
row, whose client-side decoding has only id and content set and in
particular no encrypted session key. -/
theorem hub_fetch_drops_envelope_fields_witness :
    storedMessageOf
        { id := "m1", sender := "alice", recipient := "bob", content := [7],
          encryptedKey := some ⟨2, [3]⟩, iv := [9],
          signature := some ⟨5, Message.canonical {}⟩,
          attachment := some ⟨"f", "t", 1, [4]⟩ } 5 100 ∈
      [⟨"m1", "alice", "bob", [7], 5, none, 105⟩] ∧
    decodeFetchedMessage (storedMessageOf
        { id := "m1", sender := "alice", recipient := "bob", content := [7],
          encryptedKey := some ⟨2, [3]⟩, iv := [9],
          signature := some ⟨5, Message.canonical {}⟩,
          attachment := some ⟨"f", "t", 1, [4]⟩ } 5 100) =
      { id := "m1", content := [7] } ∧
    (decodeFetchedMessage (storedMessageOf
        { id := "m1", sender := "alice", recipient := "bob", content := [7],
          encryptedKey := some ⟨2, [3]⟩, iv := [9],
          signature := some ⟨5, Message.canonical {}⟩,
          attachment := some ⟨"f", "t", 1, [4]⟩ } 5 100)).encryptedKey ≠
      some ⟨2, [3]⟩ :=
  (hub_fetch_drops_envelope_fields
      ⟨[⟨"alice", "alice", "pk", 0, true⟩], []⟩
      { id := "m1", sender := "alice", recipient := "bob", content := [7],
        encryptedKey := some ⟨2, [3]⟩, iv := [9],
        signature := some ⟨5, Message.canonical {}⟩,
        attachment := some ⟨"f", "t", 1, [4]⟩ } 5 100
      (by decide) (by decide) (by decide) (by decide)).2
    [⟨"m1", "alice", "bob", [7], 5, none, 105⟩]
    ⟨[⟨"alice", "alice", "pk", 5, true⟩], [⟨"m1", "alice", "bob", [7], 5, some 5, 105⟩]⟩
    (by decide)

end Clsp
